import Mathlib

/-!
Verification of the task-list query/filter/pagination engine of the
`rust_todo_backend` repository, as implemented in the `Dashboard` component
of `src/frontend/src/App.js`.

The development embeds, directly from the source:
  * the `URLSearchParams` parameter set backing the query state
    (an ordered association list of string key/value pairs),
  * the URL parse at the top of `Dashboard` (`parseInt(... || '1', 10)`
    and the `searchParams.get(k) || default` reads),
  * `handleFilterChange` (sentinel stripping and the unconditional
    page reset),
  * the form-validation effect (title and due-date rules),
  * `loadTasks` (the fetch reconciler: try / catch / finally),
  * the 500 ms debounce effect around `loadTasks`,
  * the pagination controls (Previous / Next buttons).
-/

namespace TodoApp

/-- The `URLSearchParams` parameter set: an ordered list of key/value pairs.
`List.lookup` models `searchParams.get` (first occurrence, `none` = null). -/
abbrev Params := List (String × String)

/-- JS `searchParams.get(k)`: first value bound to `k`, or `none` (JS `null`). -/
def getParam (ps : Params) (k : String) : Option String :=
  List.lookup k ps

/-- JS `URLSearchParams.delete(k)`: remove every binding of `k`. -/
def deleteParam (ps : Params) (k : String) : Params :=
  ps.filter (fun p => p.1 != k)

/-- JS `URLSearchParams.set(k, v)`: replace the first binding of `k` in place,
drop every later binding of `k`; append at the end when `k` is absent. -/
def setParam : Params → String → String → Params
  | [], k, v => [(k, v)]
  | (k2, v2) :: rest, k, v =>
    if k2 = k then (k, v) :: deleteParam rest k
    else (k2, v2) :: setParam rest k v

/-- The source's `handleFilterChange(key, value)`:
set the key when the value is truthy and not a sentinel (`''`, `'all'`,
`'unassigned'`), otherwise delete the key; then unconditionally
`newParams.set('page', '1')`. -/
def handleFilterChange (ps : Params) (key value : String) : Params :=
  let p1 :=
    if value ≠ "" ∧ value ≠ "all" ∧ value ≠ "unassigned" then
      setParam ps key value
    else
      deleteParam ps key
  setParam p1 "page" "1"

/-! ### Decimal numerals: JS `Number.prototype.toString` and `parseInt(s, 10)` -/

/-- Numeric value of a decimal digit character. -/
def digitVal (c : Char) : Nat := c.toNat - 48

/-- Horner accumulation of a big-endian digit list. -/
def digitsValAux (a : Nat) : List Char → Nat
  | [] => a
  | c :: cs => digitsValAux (a * 10 + digitVal c) cs

/-- Value of a big-endian decimal digit list. -/
def digitsVal (cs : List Char) : Nat := digitsValAux 0 cs

/-- Big-endian decimal digits of a natural number, structurally recursive
on a fuel bound so it reduces definitionally. -/
def toDigitsAux : Nat → Nat → List Char
  | 0, _ => []
  | fuel + 1, n =>
    if n < 10 then [Nat.digitChar n]
    else toDigitsAux fuel (n / 10) ++ [Nat.digitChar (n % 10)]

/-- Big-endian decimal digits of a natural number (JS `n.toString()`). -/
def toDigits (n : Nat) : List Char := toDigitsAux (n + 1) n

/-- Decimal string of a natural number. -/
def natStr (n : Nat) : String := String.mk (toDigits n)

/-- Leading run of decimal digits, or `none` when there is none (JS `NaN`). -/
def parseDigits (cs : List Char) : Option Nat :=
  if (cs.takeWhile Char.isDigit).isEmpty then none
  else some (digitsVal (cs.takeWhile Char.isDigit))

/-- JS `parseInt(s, 10)`: skip leading whitespace, optional sign, then the
longest run of decimal digits; `none` models `NaN` (no digits at all). -/
def jsParseInt (s : String) : Option Int :=
  match s.toList.dropWhile Char.isWhitespace with
  | [] => none
  | c :: rest =>
    if c = '-' then (parseDigits rest).map (fun n => -(n : Int))
    else if c = '+' then (parseDigits rest).map (fun n => (n : Int))
    else (parseDigits (c :: rest)).map (fun n => (n : Int))

/-- JS `x || d` on an optional string: `null` and `''` are falsy. -/
def orDefault (x : Option String) (d : String) : String :=
  match x with
  | none => d
  | some v => if v = "" then d else v

/-! ### The URL parse at the top of `Dashboard` (App.js lines 374-386) -/

/-- The filter/pagination state `Dashboard` derives from the URL.
`page`/`per_page` are JS numbers produced by `parseInt`; `none` models
`NaN`. -/
structure ParsedFilters where
  page : Option Int
  per_page : Option Int
  search : String
  status : String
  priority : String
  tags : String
  due_date_start : String
  due_date_end : String
  assigned_to : String
  sort_by : String
  sort_order : String
deriving Repr, DecidableEq

/-- The parse of the query string performed on every `Dashboard` render:
`parseInt(searchParams.get('page') || '1', 10)` and friends. -/
def parseFilters (ps : Params) : ParsedFilters where
  page := jsParseInt (orDefault (getParam ps "page") "1")
  per_page := jsParseInt (orDefault (getParam ps "per_page") "10")
  search := orDefault (getParam ps "search") ""
  status := orDefault (getParam ps "status") ""
  priority := orDefault (getParam ps "priority") ""
  tags := orDefault (getParam ps "tags") ""
  due_date_start := orDefault (getParam ps "due_date_start") ""
  due_date_end := orDefault (getParam ps "due_date_end") ""
  assigned_to := orDefault (getParam ps "assigned_to") ""
  sort_by := orDefault (getParam ps "sort_by") "created_at"
  sort_order := orDefault (getParam ps "sort_order") "desc"

/-- The keys `parseFilters` reads; every other key is ignored. -/
def knownKeys : List String :=
  ["page", "per_page", "search", "status", "priority", "tags",
   "due_date_start", "due_date_end", "assigned_to", "sort_by", "sort_order"]

/-! ### Serialization of a FilterSet snapshot -/

/-- An abstract FilterSet snapshot (§3 of the spec): string filters plus
positive page/per_page numbers. -/
structure FilterSet where
  search : String
  status : String
  priority : String
  tags : String
  due_date_start : String
  due_date_end : String
  assigned_to : String
  sort_by : String
  sort_order : String
  page : Nat
  per_page : Nat
deriving Repr, DecidableEq

/-- The no-op sentinels `handleFilterChange` refuses to store: the falsy
empty string, `'all'` and `'unassigned'`. -/
def isNoop (v : String) : Bool := v = "" || v = "all" || v = "unassigned"

/-- One serialized field: present exactly when `handleFilterChange` would
`set` it rather than `delete` it. -/
def fieldParam (k v : String) : Params :=
  if isNoop v then [] else [(k, v)]

/-- Serialization of a FilterSet to the query parameter set: each string
field is written through the `handleFilterChange` rule (sentinels omitted),
and `page`/`per_page` are written as decimal numerals, as the pagination
controls and `clearFilters` do. -/
def serializeFilters (f : FilterSet) : Params :=
  fieldParam "search" f.search ++
  fieldParam "status" f.status ++
  fieldParam "priority" f.priority ++
  fieldParam "tags" f.tags ++
  fieldParam "due_date_start" f.due_date_start ++
  fieldParam "due_date_end" f.due_date_end ++
  fieldParam "assigned_to" f.assigned_to ++
  fieldParam "sort_by" f.sort_by ++
  fieldParam "sort_order" f.sort_order ++
  [("page", natStr f.page), ("per_page", natStr f.per_page)]

/-- Modelled from the spec (§4.2, §8): `normalize` strips no-op/sentinel
values (empty string, `"all"`, `"unassigned"`) and defaults absent keys
(`page = 1`, `per_page = 10`, `sort_by = created_at`, `sort_order = desc`).
Stated on the spec's words, to be compared with `parseFilters ∘
serializeFilters`. -/
def normalizeSpec (f : FilterSet) : ParsedFilters where
  page := some (f.page : Int)
  per_page := some (f.per_page : Int)
  search := if isNoop f.search then "" else f.search
  status := if isNoop f.status then "" else f.status
  priority := if isNoop f.priority then "" else f.priority
  tags := if isNoop f.tags then "" else f.tags
  due_date_start := if isNoop f.due_date_start then "" else f.due_date_start
  due_date_end := if isNoop f.due_date_end then "" else f.due_date_end
  assigned_to := if isNoop f.assigned_to then "" else f.assigned_to
  sort_by := if isNoop f.sort_by then "created_at" else f.sort_by
  sort_order := if isNoop f.sort_order then "desc" else f.sort_order

/-! ### Form validation (App.js lines 406-426) -/

/-- The two distinct title error messages of the validation effect. -/
inductive TitleError where
  | badLength
  | required
deriving Repr, DecidableEq

/-- The task form draft (`taskForm` state). Dates are calendar days
(integer day numbers), matching the `setHours(0,0,0,0)` date-only
comparison in the source. -/
structure TaskFormDraft where
  title : String
  description : String
  status : String
  priority : String
  due_date : Option Int
  tags : String
  assigned_to : String
deriving Repr, DecidableEq

/-- The `formErrors` object: which errors the validation effect records. -/
structure FormErrors where
  title : Option TitleError
  due_date : Bool
deriving Repr, DecidableEq

/-- The validation `useEffect`: a length error when the trimmed title is
nonempty and outside [3,120], else a required error when it is empty;
a due-date error when the (date-only) due date is before today. -/
def computeFormErrors (today : Int) (f : TaskFormDraft) : FormErrors where
  title :=
    let n := f.title.trim.length
    if 0 < n ∧ (n < 3 ∨ 120 < n) then some .badLength
    else if n = 0 then some .required
    else none
  due_date :=
    match f.due_date with
    | some d => decide (d < today)
    | none => false

/-! ### The task-list reconciler: `loadTasks` (App.js lines 428-446) -/

/-- The `pagination` state, replaced wholesale by each successful fetch. -/
structure Pagination where
  page : Int
  per_page : Int
  total : Int
  total_pages : Int
deriving Repr, DecidableEq

/-- The view state `loadTasks` touches: `tasks`, `pagination`, `loading`,
plus a count of destructive error toasts surfaced so far. -/
structure DashState where
  tasks : List Nat
  pagination : Pagination
  loading : Bool
  errorToasts : Nat
deriving Repr, DecidableEq

/-- One complete run of `loadTasks` for a given network outcome.
`setLoading(true)`, then one `axios.get`; on success `setTasks` and
`setPagination`; on error a toast; `finally` clears `loading`. The second
component counts the HTTP requests the call issues (always exactly one:
the code never retries). -/
def loadTasksStep (s : DashState) (outcome : Except Unit (List Nat × Pagination)) :
    DashState × Nat :=
  let s1 : DashState := { s with loading := true }
  match outcome with
  | .ok r => ({ s1 with tasks := r.1, pagination := r.2, loading := false }, 1)
  | .error _ => ({ s1 with errorToasts := s1.errorToasts + 1, loading := false }, 1)

/-- Interleaving events of overlapping `loadTasks` calls. Each fetch is
tagged with the dispatch sequence number `seq` so that claims about
ordering can be stated; the code itself never consults such a tag. -/
inductive FetchEvent where
  | dispatch (seq : Nat)
  | resolve (seq : Nat) (tasks : List Nat) (pg : Pagination)
  | fail (seq : Nat)
deriving Repr, DecidableEq

/-- How the `Dashboard` state reacts to one fetch event, exactly as
`loadTasks` does: a dispatch runs `setLoading(true)`; a resolution runs
`setTasks`/`setPagination` unconditionally (there is no staleness check in
the source) and `finally` clears `loading`; a failure surfaces a toast and
clears `loading`. -/
def applyFetchEvent (s : DashState) : FetchEvent → DashState
  | .dispatch _ => { s with loading := true }
  | .resolve _ ts pg => { s with tasks := ts, pagination := pg, loading := false }
  | .fail _ => { s with errorToasts := s.errorToasts + 1, loading := false }

/-- Run a whole interleaving of fetch events. -/
def runFetchEvents (s : DashState) (es : List FetchEvent) : DashState :=
  es.foldl applyFetchEvent s

/-- Whether an event is a successful fetch resolution. -/
def isResolve : FetchEvent → Bool
  | .resolve _ _ _ => true
  | _ => false

/-- The initial `Dashboard` state: empty task list, zeroed pagination,
`loading = true`. -/
def initialDashState : DashState where
  tasks := []
  pagination := { page := 1, per_page := 10, total := 0, total_pages := 0 }
  loading := true
  errorToasts := 0

/-! ### The debounce effect (App.js lines 449-457) -/

/-- The fixed debounce delay of the fetch scheduler, in milliseconds. -/
def debounceDelay : Nat := 500

/-- The debounced fetch scheduler. Input: the observed `searchParams`
changes as (time, snapshot) pairs in chronological order. Each change
(re)runs the effect: the cleanup clears the timer pending from the
previous change, and a new 500 ms timer is started capturing the current
`loadTasks` closure (hence the current snapshot). The timer started at
time `t` therefore fires, at `t + 500` and with its captured snapshot,
exactly when the next change arrives no earlier than `t + 500`. Output:
the issued fetches as (fire time, snapshot) pairs. -/
def debounceFires {α : Type} : List (Nat × α) → List (Nat × α)
  | [] => []
  | [(t, s)] => [(t + debounceDelay, s)]
  | (t, s) :: (t2, s2) :: rest =>
    if t + debounceDelay ≤ t2 then
      (t + debounceDelay, s) :: debounceFires ((t2, s2) :: rest)
    else
      debounceFires ((t2, s2) :: rest)

/-! ### Pagination controls (App.js lines 904-936) -/

/-- Target page of the Previous button: `Math.max(1, page - 1)`. -/
def prevPageTarget (page : Int) : Int := max 1 (page - 1)

/-- Target page of the Next button: `Math.min(total_pages, page + 1)`. -/
def nextPageTarget (total_pages page : Int) : Int := min total_pages (page + 1)

/-- The Previous button's `disabled={page === 1}`. -/
def prevDisabled (page : Int) : Bool := page = 1

/-- The Next button's `disabled={page === pagination.total_pages}`. -/
def nextDisabled (total_pages page : Int) : Bool := page = total_pages

/-- The controls render only under `pagination.total_pages > 1`. -/
def paginationShown (total_pages : Int) : Bool := 1 < total_pages

example : parseFilters [("page", "3"), ("status", "done")] =
    { page := some 3, per_page := some 10, search := "", status := "done",
      priority := "", tags := "", due_date_start := "", due_date_end := "",
      assigned_to := "", sort_by := "created_at", sort_order := "desc" } := by
  decide

example : jsParseInt "abc" = none := by decide

example : jsParseInt "-42" = some (-42) := by decide

example : natStr 120 = "120" := by decide

example : jsParseInt (natStr 120) = some 120 := by decide

/-! ### Lemmas: the decimal printer inverts through `jsParseInt` -/

lemma digitsValAux_nil (a : Nat) : digitsValAux a [] = a := rfl

lemma digitsValAux_cons (a : Nat) (c : Char) (cs : List Char) :
    digitsValAux a (c :: cs) = digitsValAux (a * 10 + digitVal c) cs := rfl

lemma toDigitsAux_succ (fuel n : Nat) :
    toDigitsAux (fuel + 1) n =
      if n < 10 then [Nat.digitChar n]
      else toDigitsAux fuel (n / 10) ++ [Nat.digitChar (n % 10)] := rfl

lemma digitsValAux_append (a : Nat) (l1 l2 : List Char) :
    digitsValAux a (l1 ++ l2) = digitsValAux (digitsValAux a l1) l2 := by
  induction l1 generalizing a with
  | nil => rfl
  | cons c cs ih =>
    rw [List.cons_append]
    show digitsValAux (a * 10 + digitVal c) (cs ++ l2) = _
    rw [ih]
    rfl

lemma digitVal_digitChar (d : Nat) (h : d < 10) :
    digitVal (Nat.digitChar d) = d := by
  interval_cases d <;> decide

lemma digitChar_isDigit (d : Nat) (h : d < 10) :
    (Nat.digitChar d).isDigit = true := by
  interval_cases d <;> decide

lemma digitChar_not_special (d : Nat) (h : d < 10) :
    (Nat.digitChar d).isWhitespace = false ∧
      Nat.digitChar d ≠ '-' ∧ Nat.digitChar d ≠ '+' := by
  interval_cases d <;> exact ⟨by decide, by decide, by decide⟩

lemma toDigitsAux_ne_nil : ∀ fuel n, n < fuel → toDigitsAux fuel n ≠ [] := by
  intro fuel
  induction fuel with
  | zero => intro n h; omega
  | succ fuel _ =>
    intro n _
    by_cases h10 : n < 10 <;> simp [toDigitsAux, h10]

lemma toDigitsAux_mem : ∀ fuel n, n < fuel →
    ∀ c ∈ toDigitsAux fuel n, ∃ d, d < 10 ∧ c = Nat.digitChar d := by
  intro fuel
  induction fuel with
  | zero => intro n h; omega
  | succ fuel ih =>
    intro n hn c hc
    by_cases h10 : n < 10
    · simp [toDigitsAux, h10] at hc
      exact ⟨n, h10, hc⟩
    · simp only [toDigitsAux, h10, if_neg, if_false, List.mem_append,
        List.mem_singleton] at hc
      rcases hc with hc | hc
      · have hdiv : n / 10 < fuel := by
          have h1 : n / 10 < n := Nat.div_lt_self (by omega) (by omega)
          omega
        exact ih (n / 10) hdiv c hc
      · exact ⟨n % 10, Nat.mod_lt _ (by omega), hc⟩

lemma digitsValAux_toDigitsAux : ∀ fuel n, n < fuel → ∀ a,
    digitsValAux a (toDigitsAux fuel n) =
      a * 10 ^ (toDigitsAux fuel n).length + n := by
  intro fuel
  induction fuel with
  | zero => intro n h; omega
  | succ fuel ih =>
    intro n hn a
    by_cases h10 : n < 10
    · rw [toDigitsAux_succ, if_pos h10, digitsValAux_cons, digitsValAux_nil]
      rw [digitVal_digitChar n h10]
      simp only [List.length_singleton, pow_one]
    · have hdiv : n / 10 < fuel := by
        have h1 : n / 10 < n := Nat.div_lt_self (by omega) (by omega)
        omega
      rw [toDigitsAux_succ, if_neg h10, digitsValAux_append]
      rw [digitsValAux_cons, digitsValAux_nil]
      rw [ih (n / 10) hdiv a, digitVal_digitChar _ (Nat.mod_lt _ (by omega))]
      simp only [List.length_append, List.length_singleton]
      rw [pow_succ, ← mul_assoc, Nat.add_mul]
      omega

lemma toDigits_ne_nil (n : Nat) : toDigits n ≠ [] :=
  toDigitsAux_ne_nil (n + 1) n (by omega)

lemma mem_toDigits (n : Nat) (c : Char) (hc : c ∈ toDigits n) :
    ∃ d, d < 10 ∧ c = Nat.digitChar d :=
  toDigitsAux_mem (n + 1) n (by omega) c hc

lemma digitsVal_toDigits (n : Nat) : digitsVal (toDigits n) = n := by
  unfold digitsVal toDigits
  rw [digitsValAux_toDigitsAux (n + 1) n (by omega) 0]
  simp

lemma takeWhile_eq_of_forall {p : Char → Bool} :
    ∀ l : List Char, (∀ c ∈ l, p c = true) → l.takeWhile p = l := by
  intro l h
  induction l with
  | nil => rfl
  | cons c cs ih =>
    rw [List.takeWhile_cons, if_pos (h c (by simp))]
    rw [ih (fun x hx => h x (by simp [hx]))]

lemma parseDigits_toDigits (n : Nat) : parseDigits (toDigits n) = some n := by
  unfold parseDigits
  rw [takeWhile_eq_of_forall _ (fun c hc => by
    obtain ⟨d, hd, rfl⟩ := mem_toDigits n c hc
    exact digitChar_isDigit d hd)]
  rw [if_neg (by simp [List.isEmpty_iff, toDigits_ne_nil n])]
  rw [digitsVal_toDigits]

lemma jsParseInt_natStr (n : Nat) : jsParseInt (natStr n) = some (n : Int) := by
  unfold jsParseInt natStr
  have hl : (String.mk (toDigits n)).toList = toDigits n := rfl
  rw [hl]
  obtain ⟨c, cs, hx⟩ := List.exists_cons_of_ne_nil (toDigits_ne_nil n)
  have hc : c ∈ toDigits n := by rw [hx]; simp
  obtain ⟨d, hd, hcd⟩ := mem_toDigits n c hc
  obtain ⟨hws, hminus, hplus⟩ := digitChar_not_special d hd
  rw [hx, List.dropWhile_cons, if_neg (by rw [hcd, hws]; simp)]
  simp only []
  rw [if_neg (by rw [hcd]; exact hminus), if_neg (by rw [hcd]; exact hplus)]
  rw [← hx, parseDigits_toDigits]
  rfl

/-! ### Lemmas: parameter lookup over the serialized form -/

lemma lookup_pair_ne (k k2 v : String) (rest : Params) (h : k ≠ k2) :
    List.lookup k ((k2, v) :: rest) = List.lookup k rest := by
  have hb : (k == k2) = false := by simpa using h
  simp [List.lookup, hb]

lemma lookup_pair_eq (k v : String) (rest : Params) :
    List.lookup k ((k, v) :: rest) = some v := by
  simp [List.lookup]

lemma lookup_fieldParam_ne (k k2 v : String) (rest : Params) (h : k ≠ k2) :
    List.lookup k (fieldParam k2 v ++ rest) = List.lookup k rest := by
  unfold fieldParam
  by_cases hn : isNoop v
  · rw [if_pos hn, List.nil_append]
  · rw [if_neg hn, List.singleton_append, lookup_pair_ne _ _ _ _ h]

lemma lookup_fieldParam_self (k v : String) (rest : Params) :
    List.lookup k (fieldParam k v ++ rest) =
      if isNoop v then List.lookup k rest else some v := by
  unfold fieldParam
  by_cases hn : isNoop v
  · rw [if_pos hn, if_pos hn, List.nil_append]
  · rw [if_neg hn, if_neg hn, List.singleton_append, lookup_pair_eq]

lemma natStr_ne_empty (n : Nat) : natStr n ≠ "" := by
  unfold natStr
  intro h
  exact toDigits_ne_nil n (by
    have : (String.mk (toDigits n)).data = ("" : String).data := by rw [h]
    simpa using this)

lemma orDefault_none (d : String) : orDefault none d = d := rfl

lemma orDefault_some (v d : String) :
    orDefault (some v) d = if v = "" then d else v := rfl

lemma orDefault_natStr (n : Nat) (d : String) :
    orDefault (some (natStr n)) d = natStr n := by
  rw [orDefault_some, if_neg (natStr_ne_empty n)]

lemma orDefault_strip (v d : String) :
    orDefault (if isNoop v then none else some v) d =
      if isNoop v then d else v := by
  by_cases h : isNoop v
  · rw [if_pos h, if_pos h]; rfl
  · rw [if_neg h, if_neg h, orDefault_some, if_neg]
    intro he
    rw [he] at h
    exact h rfl

lemma getParam_serialize_page (f : FilterSet) :
    getParam (serializeFilters f) "page" = some (natStr f.page) := by
  unfold getParam serializeFilters
  simp [lookup_fieldParam_ne, lookup_pair_eq]

lemma getParam_serialize_per_page (f : FilterSet) :
    getParam (serializeFilters f) "per_page" = some (natStr f.per_page) := by
  unfold getParam serializeFilters
  simp [lookup_fieldParam_ne, lookup_pair_ne, lookup_pair_eq]

lemma getParam_serialize_search (f : FilterSet) :
    getParam (serializeFilters f) "search" =
      if isNoop f.search then none else some f.search := by
  unfold getParam serializeFilters
  simp [lookup_fieldParam_self, lookup_fieldParam_ne, lookup_pair_ne]

lemma getParam_serialize_status (f : FilterSet) :
    getParam (serializeFilters f) "status" =
      if isNoop f.status then none else some f.status := by
  unfold getParam serializeFilters
  simp [lookup_fieldParam_self, lookup_fieldParam_ne, lookup_pair_ne]

lemma getParam_serialize_priority (f : FilterSet) :
    getParam (serializeFilters f) "priority" =
      if isNoop f.priority then none else some f.priority := by
  unfold getParam serializeFilters
  simp [lookup_fieldParam_self, lookup_fieldParam_ne, lookup_pair_ne]

lemma getParam_serialize_tags (f : FilterSet) :
    getParam (serializeFilters f) "tags" =
      if isNoop f.tags then none else some f.tags := by
  unfold getParam serializeFilters
  simp [lookup_fieldParam_self, lookup_fieldParam_ne, lookup_pair_ne]

lemma getParam_serialize_dds (f : FilterSet) :
    getParam (serializeFilters f) "due_date_start" =
      if isNoop f.due_date_start then none else some f.due_date_start := by
  unfold getParam serializeFilters
  simp [lookup_fieldParam_self, lookup_fieldParam_ne, lookup_pair_ne]

lemma getParam_serialize_dde (f : FilterSet) :
    getParam (serializeFilters f) "due_date_end" =
      if isNoop f.due_date_end then none else some f.due_date_end := by
  unfold getParam serializeFilters
  simp [lookup_fieldParam_self, lookup_fieldParam_ne, lookup_pair_ne]

lemma getParam_serialize_assigned (f : FilterSet) :
    getParam (serializeFilters f) "assigned_to" =
      if isNoop f.assigned_to then none else some f.assigned_to := by
  unfold getParam serializeFilters
  simp [lookup_fieldParam_self, lookup_fieldParam_ne, lookup_pair_ne]

lemma getParam_serialize_sort_by (f : FilterSet) :
    getParam (serializeFilters f) "sort_by" =
      if isNoop f.sort_by then none else some f.sort_by := by
  unfold getParam serializeFilters
  simp [lookup_fieldParam_self, lookup_fieldParam_ne, lookup_pair_ne]

lemma getParam_serialize_sort_order (f : FilterSet) :
    getParam (serializeFilters f) "sort_order" =
      if isNoop f.sort_order then none else some f.sort_order := by
  unfold getParam serializeFilters
  simp [lookup_fieldParam_self, lookup_fieldParam_ne, lookup_pair_ne]

/-- C3: for every FilterSet `F`, parsing the query string produced by
serializing `F` yields the FilterSet `normalize(F)`: no-op/sentinel values
(empty string, `"all"`, `"unassigned"`) are stripped, and absent keys take
the defaults `page = 1`, `per_page = 10`, `sort_by = created_at`,
`sort_order = desc`. -/
theorem parse_serialize_roundtrip (f : FilterSet) :
    parseFilters (serializeFilters f) = normalizeSpec f := by
  unfold parseFilters normalizeSpec
  rw [getParam_serialize_page, getParam_serialize_per_page,
    getParam_serialize_search, getParam_serialize_status,
    getParam_serialize_priority, getParam_serialize_tags,
    getParam_serialize_dds, getParam_serialize_dde,
    getParam_serialize_assigned, getParam_serialize_sort_by,
    getParam_serialize_sort_order]
  rw [orDefault_natStr, orDefault_natStr, jsParseInt_natStr, jsParseInt_natStr]
  rw [orDefault_strip, orDefault_strip, orDefault_strip, orDefault_strip,
    orDefault_strip, orDefault_strip, orDefault_strip, orDefault_strip,
    orDefault_strip]

/-! ### Lemmas: `setParam` / `deleteParam` and lookup -/

lemma setParam_nil (k v : String) : setParam [] k v = [(k, v)] := rfl

lemma setParam_cons (k2 v2 : String) (rest : Params) (k v : String) :
    setParam ((k2, v2) :: rest) k v =
      if k2 = k then (k, v) :: deleteParam rest k
      else (k2, v2) :: setParam rest k v := rfl

lemma lookup_deleteParam_self (ps : Params) (k : String) :
    List.lookup k (deleteParam ps k) = none := by
  induction ps with
  | nil => rfl
  | cons p rest ih =>
    obtain ⟨a, b⟩ := p
    unfold deleteParam at ih ⊢
    rw [List.filter_cons]
    by_cases hak : a = k
    · simp only [hak, bne_self_eq_false]
      exact ih
    · have hb : (a != k) = true := by simpa using hak
      simp only [hb, if_pos]
      rw [lookup_pair_ne _ _ _ _ (fun he => hak he.symm)]
      exact ih

lemma lookup_deleteParam_ne (ps : Params) (k k2 : String) (h : k ≠ k2) :
    List.lookup k (deleteParam ps k2) = List.lookup k ps := by
  induction ps with
  | nil => rfl
  | cons p rest ih =>
    obtain ⟨a, b⟩ := p
    unfold deleteParam at ih ⊢
    rw [List.filter_cons]
    by_cases hak : a = k2
    · simp only [hak, bne_self_eq_false, Bool.false_eq_true, if_false]
      rw [ih, lookup_pair_ne _ _ _ _ h]
    · have hb : (a != k2) = true := by simpa using hak
      simp only [hb, if_pos]
      by_cases hka : k = a
      · rw [hka, lookup_pair_eq, lookup_pair_eq]
      · rw [lookup_pair_ne _ _ _ _ hka, lookup_pair_ne _ _ _ _ hka]
        exact ih

lemma lookup_setParam_self (ps : Params) (k v : String) :
    List.lookup k (setParam ps k v) = some v := by
  induction ps with
  | nil => rw [setParam_nil, lookup_pair_eq]
  | cons p rest ih =>
    obtain ⟨a, b⟩ := p
    rw [setParam_cons]
    by_cases hak : a = k
    · rw [if_pos hak, lookup_pair_eq]
    · rw [if_neg hak, lookup_pair_ne _ _ _ _ (fun he => hak he.symm)]
      exact ih

lemma lookup_setParam_ne (ps : Params) (k k2 v : String) (h : k ≠ k2) :
    List.lookup k (setParam ps k2 v) = List.lookup k ps := by
  induction ps with
  | nil =>
    rw [setParam_nil, lookup_pair_ne _ _ _ _ h]
  | cons p rest ih =>
    obtain ⟨a, b⟩ := p
    rw [setParam_cons]
    by_cases hak : a = k2
    · rw [if_pos hak, lookup_pair_ne _ _ _ _ h, lookup_deleteParam_ne _ _ _ h]
      rw [lookup_pair_ne _ _ _ _ (by rw [hak]; exact h)]
    · rw [if_neg hak]
      by_cases hka : k = a
      · rw [hka, lookup_pair_eq, lookup_pair_eq]
      · rw [lookup_pair_ne _ _ _ _ hka, lookup_pair_ne _ _ _ _ hka]
        exact ih

/-! ### C4: tolerance of the URL parse -/

/-- C4 counterexample: a malformed (non-integer) `page` value does not fall
back to the default 1. The code only defaults the absent/empty case
(`searchParams.get('page') || '1'`); `parseInt('abc', 10)` is `NaN`,
modeled as `none`. -/
theorem malformed_page_not_defaulted :
    (parseFilters [("page", "abc")]).page = none ∧
      (parseFilters [("page", "abc")]).page ≠ some 1 := by
  exact ⟨by decide, by decide⟩

/-- C4 (amended): parsing is total and tolerant of unknown keys — a pair
with an unrecognized key leaves the parse unchanged, and an absent `page`
or `per_page` falls back to the defaults 1 and 10 — but a malformed
(non-integer) value for `page` or `per_page` yields `NaN` (no numeric
value), not the default. -/
theorem parse_total_tolerant (k v : String) (ps : Params)
    (h : k ∉ knownKeys) :
    parseFilters ((k, v) :: ps) = parseFilters ps ∧
      (parseFilters []).page = some 1 ∧
      (parseFilters []).per_page = some 10 ∧
      (parseFilters [("page", "abc"), ("per_page", "xyz")]).page = none ∧
      (parseFilters [("page", "abc"), ("per_page", "xyz")]).per_page = none := by
  refine ⟨?_, by decide, by decide, by decide, by decide⟩
  simp only [knownKeys, List.mem_cons, List.not_mem_nil, or_false, not_or] at h
  obtain ⟨h1, h2, h3, h4, h5, h6, h7, h8, h9, h10, h11⟩ := h
  unfold parseFilters getParam
  rw [lookup_pair_ne _ _ _ _ (Ne.symm h1), lookup_pair_ne _ _ _ _ (Ne.symm h2),
    lookup_pair_ne _ _ _ _ (Ne.symm h3), lookup_pair_ne _ _ _ _ (Ne.symm h4),
    lookup_pair_ne _ _ _ _ (Ne.symm h5), lookup_pair_ne _ _ _ _ (Ne.symm h6),
    lookup_pair_ne _ _ _ _ (Ne.symm h7), lookup_pair_ne _ _ _ _ (Ne.symm h8),
    lookup_pair_ne _ _ _ _ (Ne.symm h9), lookup_pair_ne _ _ _ _ (Ne.symm h10),
    lookup_pair_ne _ _ _ _ (Ne.symm h11)]

/-- C4 witness: the amended tolerance theorem applied at the unknown key
`foo` over a concrete parameter list. -/
theorem parse_total_tolerant_witness :
    parseFilters [("foo", "bar"), ("status", "done")] =
        parseFilters [("status", "done")] ∧
      (parseFilters []).page = some 1 ∧
      (parseFilters []).per_page = some 10 ∧
      (parseFilters [("page", "abc"), ("per_page", "xyz")]).page = none ∧
      (parseFilters [("page", "abc"), ("per_page", "xyz")]).per_page = none :=
  parse_total_tolerant "foo" "bar" [("status", "done")] (by decide)

/-! ### C5: any filter change resets the page to 1 -/

/-- C5: for every key other than `page` and every value, applying
`handleFilterChange(key, value)` yields a parameter set that parses to a
FilterSet whose page equals 1 (the unconditional
`newParams.set('page', '1')`). -/
theorem filter_change_resets_page (ps : Params) (key value : String)
    (_h : key ≠ "page") :
    (parseFilters (handleFilterChange ps key value)).page = some 1 := by
  have hp : getParam (handleFilterChange ps key value) "page" = some "1" := by
    simp only [handleFilterChange, getParam]
    exact lookup_setParam_self _ _ _
  show jsParseInt (orDefault (getParam (handleFilterChange ps key value) "page") "1") =
    some 1
  rw [hp]
  decide

/-- C5 witness: changing the search filter from page 3 lands on page 1. -/
theorem filter_change_resets_page_witness :
    (parseFilters (handleFilterChange [("page", "3"), ("status", "done")]
      "search" "bug")).page = some 1 :=
  filter_change_resets_page [("page", "3"), ("status", "done")] "search" "bug"
    (by decide)

/-! ### C6: sentinel values remove the key -/

/-- C6: for every filter key (any key other than `page`, which is not a
filter and is unconditionally re-set to 1), `handleFilterChange` with a
no-op sentinel value (empty string, `"all"`, `"unassigned"`) removes the
key from the parameter set rather than storing the sentinel. -/
theorem sentinel_removes_key (ps : Params) (key value : String)
    (hk : key ≠ "page")
    (hv : value = "" ∨ value = "all" ∨ value = "unassigned") :
    getParam (handleFilterChange ps key value) key = none := by
  simp only [handleFilterChange, getParam]
  rw [if_neg (by rcases hv with h | h | h <;> simp [h])]
  rw [lookup_setParam_ne _ _ _ _ hk]
  exact lookup_deleteParam_self ps key

/-- C6 witness: `set('status', 'all')` leaves no `status` key. -/
theorem sentinel_removes_key_witness :
    getParam (handleFilterChange [("status", "done"), ("page", "3")]
      "status" "all") "status" = none :=
  sentinel_removes_key [("status", "done"), ("page", "3")] "status" "all"
    (by decide) (Or.inr (Or.inl rfl))

/-! ### C7 / C8: form validation -/

lemma computeFormErrors_title (today : Int) (f : TaskFormDraft) :
    (computeFormErrors today f).title =
      (if 0 < f.title.trim.length ∧
          (f.title.trim.length < 3 ∨ 120 < f.title.trim.length)
       then some TitleError.badLength
       else if f.title.trim.length = 0 then some TitleError.required
       else none) := rfl

lemma computeFormErrors_due_date (today : Int) (f : TaskFormDraft) :
    (computeFormErrors today f).due_date =
      (match f.due_date with
       | some d => decide (d < today)
       | none => false) := rfl

/-- C7: the validation effect reports a title error iff the trimmed title
length lies outside [3,120]; an empty trimmed title yields the distinct
"required" message, a nonempty out-of-range one the "length" message. -/
theorem title_validation_rule (today : Int) (f : TaskFormDraft) :
    ((computeFormErrors today f).title = none ↔
      3 ≤ f.title.trim.length ∧ f.title.trim.length ≤ 120) ∧
    ((computeFormErrors today f).title = some TitleError.required ↔
      f.title.trim.length = 0) ∧
    ((computeFormErrors today f).title = some TitleError.badLength ↔
      0 < f.title.trim.length ∧
        (f.title.trim.length < 3 ∨ 120 < f.title.trim.length)) := by
  rw [computeFormErrors_title]
  split_ifs with h1 h2 <;> refine ⟨?_, ?_, ?_⟩ <;> simp <;> omega

/-- C8: the validation effect reports a due-date error iff the due date
(date-only comparison) is strictly earlier than today; a due date equal to
today is valid, yesterday is an error, and an absent due date is always
valid. -/
theorem due_date_validation_rule (today : Int) (f : TaskFormDraft) :
    ((computeFormErrors today f).due_date = true ↔
      ∃ d, f.due_date = some d ∧ d < today) ∧
    (computeFormErrors today { f with due_date := some today }).due_date
        = false ∧
    (computeFormErrors today { f with due_date := some (today - 1) }).due_date
        = true ∧
    (computeFormErrors today { f with due_date := none }).due_date = false := by
  refine ⟨?_, ?_, ?_, ?_⟩
  · rw [computeFormErrors_due_date]
    cases hd : f.due_date with
    | none => simp
    | some d => simp
  · rw [computeFormErrors_due_date]
    simp
  · rw [computeFormErrors_due_date]
    simp
  · rw [computeFormErrors_due_date]

/-! ### C9: failed fetches leave the view state intact -/

/-- C9: when the list fetch fails, the task list and pagination are left
unchanged, exactly one error toast is surfaced, the loading flag ends
cleared (the `finally`), and exactly one request was issued — no automatic
retry. -/
theorem fetch_failure_preserves_state (s : DashState) :
    (loadTasksStep s (Except.error ())).1.tasks = s.tasks ∧
    (loadTasksStep s (Except.error ())).1.pagination = s.pagination ∧
    (loadTasksStep s (Except.error ())).1.errorToasts = s.errorToasts + 1 ∧
    (loadTasksStep s (Except.error ())).1.loading = false ∧
    (loadTasksStep s (Except.error ())).2 = 1 :=
  ⟨rfl, rfl, rfl, rfl, rfl⟩

/-! ### C10: pagination controls stay within bounds -/

/-- C10: with 1 ≤ p ≤ T, the Previous control targets max(1, p-1) and the
Next control min(T, p+1), both inside [1, T]; Previous is disabled exactly
at p = 1, Next exactly at p = T, and the controls render only when
T > 1. -/
theorem pagination_controls_bounds (p T : Int) (h1 : 1 ≤ p) (h2 : p ≤ T) :
    1 ≤ prevPageTarget p ∧ prevPageTarget p ≤ T ∧
    1 ≤ nextPageTarget T p ∧ nextPageTarget T p ≤ T ∧
    (prevDisabled p = true ↔ p = 1) ∧
    (nextDisabled T p = true ↔ p = T) ∧
    (paginationShown T = true ↔ 1 < T) := by
  unfold prevPageTarget nextPageTarget prevDisabled nextDisabled
    paginationShown
  refine ⟨?_, ?_, ?_, ?_, ?_, ?_, ?_⟩ <;> simp <;> omega

/-- C10 witness: page 2 of 3. -/
theorem pagination_controls_bounds_witness :
    1 ≤ prevPageTarget 2 ∧ prevPageTarget 2 ≤ 3 ∧
    1 ≤ nextPageTarget 3 2 ∧ nextPageTarget 3 2 ≤ 3 ∧
    (prevDisabled 2 = true ↔ (2 : Int) = 1) ∧
    (nextDisabled 3 2 = true ↔ (2 : Int) = 3) ∧
    (paginationShown 3 = true ↔ (1 : Int) < 3) :=
  pagination_controls_bounds 2 3 (by decide) (by decide)

/-! ### C2: debounce coalescing -/

/-- Last change of a nonempty change sequence, written as head + tail. -/
def lastOf {α : Type} : (Nat × α) → List (Nat × α) → (Nat × α)
  | x, [] => x
  | _, y :: rest => lastOf y rest

lemma debounceFires_pair {α : Type} (t : Nat) (s : α) (t2 : Nat) (s2 : α)
    (rest : List (Nat × α)) :
    debounceFires ((t, s) :: (t2, s2) :: rest) =
      if t + debounceDelay ≤ t2 then
        (t + debounceDelay, s) :: debounceFires ((t2, s2) :: rest)
      else debounceFires ((t2, s2) :: rest) := rfl

/-- C2: for every nonempty sequence of filter changes in which each change
arrives within 500 ms of the previous one, exactly one fetch is issued: it
fires 500 ms after the last change, carrying the snapshot of the last
(Nth) change — the snapshot current at fire time — and every earlier
pending timer is cancelled. -/
theorem debounce_coalesces {α : Type} (x : Nat × α) (rest : List (Nat × α))
    (hrapid : List.Chain'
      (fun a b => a.1 ≤ b.1 ∧ b.1 < a.1 + debounceDelay) (x :: rest)) :
    debounceFires (x :: rest) =
      [((lastOf x rest).1 + debounceDelay, (lastOf x rest).2)] := by
  induction rest generalizing x with
  | nil =>
    obtain ⟨t, s⟩ := x
    rfl
  | cons y rest2 ih =>
    obtain ⟨t, s⟩ := x
    obtain ⟨t2, s2⟩ := y
    rw [List.chain'_cons] at hrapid
    obtain ⟨⟨hle, hlt⟩, htail⟩ := hrapid
    rw [debounceFires_pair, if_neg (by omega)]
    exact ih (t2, s2) htail

/-- C2 witness: three keystrokes of `bug` at 0, 100 and 300 ms produce one
fetch at 800 ms carrying the final search snapshot. -/
theorem debounce_coalesces_witness :
    debounceFires
      [(0, [("search", "b")]), (100, [("search", "bu")]),
       (300, [("search", "bug")])] = [(800, [("search", "bug")])] :=
  debounce_coalesces (0, [("search", "b")])
    [(100, [("search", "bu")]), (300, [("search", "bug")])]
    (by
      rw [List.chain'_cons, List.chain'_cons]
      refine ⟨⟨?_, ?_⟩, ⟨?_, ?_⟩, ?_⟩ <;> simp [debounceDelay])

/-! ### C1: no stale-result rejection in the reconciler -/

/-- C1 counterexample: fetch 0 is dispatched before fetch 1, fetch 1's
response is applied first, and fetch 0's later-arriving response is NOT
discarded — it overwrites fetch 1's already-applied task list, because
`loadTasks` runs `setTasks`/`setPagination` unconditionally on every
resolution. -/
theorem stale_response_not_discarded :
    (runFetchEvents initialDashState
      [FetchEvent.dispatch 0, FetchEvent.dispatch 1,
       FetchEvent.resolve 1 [2] ⟨1, 10, 1, 1⟩,
       FetchEvent.resolve 0 [1] ⟨1, 10, 2, 1⟩]).tasks = [1] ∧
      ([1] : List Nat) ≠ [2] :=
  ⟨rfl, by decide⟩

/-- C1 (amended): the reconciler performs no sequence check at all —
every resolved fetch is applied on arrival, so after any interleaving the
task list and pagination are those of the LAST response to arrive, even
when that response belongs to an earlier-dispatched fetch. -/
theorem last_arrival_wins (s : DashState) (pre post : List FetchEvent)
    (seq : Nat) (ts : List Nat) (pg : Pagination)
    (hpost : post.all (fun e => !isResolve e) = true) :
    (runFetchEvents s (pre ++ FetchEvent.resolve seq ts pg :: post)).tasks
        = ts ∧
    (runFetchEvents s
        (pre ++ FetchEvent.resolve seq ts pg :: post)).pagination = pg := by
  have key : ∀ (es : List FetchEvent), es.all (fun e => !isResolve e) = true →
      ∀ s0 : DashState,
        (es.foldl applyFetchEvent s0).tasks = s0.tasks ∧
        (es.foldl applyFetchEvent s0).pagination = s0.pagination := by
    intro es
    induction es with
    | nil => intro _ s0; exact ⟨rfl, rfl⟩
    | cons e rest ih =>
      intro h s0
      rw [List.all_cons, Bool.and_eq_true] at h
      obtain ⟨he, hrest⟩ := h
      rw [List.foldl_cons]
      have hr := ih hrest (applyFetchEvent s0 e)
      cases e with
      | dispatch n => exact hr
      | resolve n ts2 pg2 => simp [isResolve] at he
      | fail n => exact hr
  unfold runFetchEvents
  rw [List.foldl_append, List.foldl_cons]
  exact key post hpost
    (applyFetchEvent (List.foldl applyFetchEvent s pre)
      (FetchEvent.resolve seq ts pg))

/-- C1 witness: after two overlapping fetches and a later failed one, the
view shows the last response to arrive (the stale fetch 0). -/
theorem last_arrival_wins_witness :
    (runFetchEvents initialDashState
      ([FetchEvent.dispatch 0, FetchEvent.dispatch 1,
        FetchEvent.resolve 1 [7] ⟨1, 10, 1, 1⟩] ++
       FetchEvent.resolve 0 [5] ⟨1, 10, 2, 1⟩ ::
       [FetchEvent.dispatch 2, FetchEvent.fail 2])).tasks = [5] ∧
    (runFetchEvents initialDashState
      ([FetchEvent.dispatch 0, FetchEvent.dispatch 1,
        FetchEvent.resolve 1 [7] ⟨1, 10, 1, 1⟩] ++
       FetchEvent.resolve 0 [5] ⟨1, 10, 2, 1⟩ ::
       [FetchEvent.dispatch 2, FetchEvent.fail 2])).pagination
      = ⟨1, 10, 2, 1⟩ :=
  last_arrival_wins initialDashState
    [FetchEvent.dispatch 0, FetchEvent.dispatch 1,
     FetchEvent.resolve 1 [7] ⟨1, 10, 1, 1⟩]
    [FetchEvent.dispatch 2, FetchEvent.fail 2]
    0 [5] ⟨1, 10, 2, 1⟩ (by decide)

end TodoApp
